import Mathlib

set_option maxRecDepth 200000

/-!
Verification development for the evilgitfs filesystem orchestrator
(`evilgitfs.py`).  The Python source is shallowly embedded: pure helper
functions become Lean functions, the mutable global state (directory tree,
LRU cache, pending-action map, local data directory, dispatched git
operations) becomes an explicit state record, and Python exceptions become
an `Except PyError` result.  Machine integers are modelled as `Nat`/`Int`
with explicit `% 2^32` where the source (SHA-1) relies on wrap-around.
-/

namespace EvilGitFs

/-- Python-level exceptions that the embedded code can raise. -/
inductive PyError where
  | attributeError
  | valueError
  | keyError
  | indexError
  | typeError
  | fileNotFound
  | isADirectory
  | notADirectory
  | dirNotEmpty
  | badFd
  | fuseENOENT
  | nameError (name : String)
  | unboundLocal (name : String)
  | stopIteration
  deriving DecidableEq, Repr

/-! ### Association lists (Python `dict` with insertion order) -/

/-- `d.get(k)`: first value bound to `k`. -/
def alGet {α : Type} (es : List (String × α)) (k : String) : Option α :=
  (es.find? (fun e => e.1 == k)).map (fun e => e.2)

/-- `d[k] = v`: update in place, or append at the end when the key is new. -/
def alSet {α : Type} : List (String × α) → String → α → List (String × α)
  | [], k, v => [(k, v)]
  | e :: rest, k, v => if e.1 == k then (k, v) :: rest else e :: alSet rest k v

/-- `del d[k]` (key assumed unique, as in a Python dict). -/
def alErase {α : Type} (es : List (String × α)) (k : String) : List (String × α) :=
  es.filter (fun e => e.1 != k)

/-- `k in d`. -/
def alContains {α : Type} (es : List (String × α)) (k : String) : Bool :=
  es.any (fun e => e.1 == k)

/-! ### SHA-1 (`hashlib.sha1`), on byte lists, words as `Nat` mod 2^32 -/

def m32 : Nat := 4294967296

def rotl (n x : Nat) : Nat := ((x <<< n) ||| (x >>> (32 - n))) % m32

def sha1F (t b c d : Nat) : Nat :=
  if t < 20 then (b &&& c) ||| ((b ^^^ 4294967295) &&& d)
  else if t < 40 then b ^^^ c ^^^ d
  else if t < 60 then (b &&& c) ||| (b &&& d) ||| (c &&& d)
  else b ^^^ c ^^^ d

def sha1K (t : Nat) : Nat :=
  if t < 20 then 1518500249
  else if t < 40 then 1859775393
  else if t < 60 then 2400959708
  else 3395469782

/-- Big-endian byte expansion of `v` to `n` bytes. -/
def toBytesBE : Nat → Nat → List Nat
  | 0, _ => []
  | n + 1, v => toBytesBE n (v / 256) ++ [v % 256]

/-- Group bytes into big-endian 32-bit words. -/
def bytesToWords : List Nat → List Nat
  | b0 :: b1 :: b2 :: b3 :: rest =>
    (((b0 * 256 + b1) * 256 + b2) * 256 + b3) :: bytesToWords rest
  | _ => []

/-- One step of the SHA-1 message-schedule extension. -/
def sha1ExtendStep (w : List Nat) : List Nat :=
  let n := w.length
  w ++ [rotl 1 ((w.getD (n - 3) 0) ^^^ (w.getD (n - 8) 0) ^^^
                (w.getD (n - 14) 0) ^^^ (w.getD (n - 16) 0))]

/-- The 80 SHA-1 rounds over the extended schedule. -/
def sha1Rounds : List Nat → Nat → Nat × Nat × Nat × Nat × Nat → Nat × Nat × Nat × Nat × Nat
  | [], _, st => st
  | w :: ws, t, (a, b, c, d, e) =>
    sha1Rounds ws (t + 1) ((rotl 5 a + sha1F t b c d + e + sha1K t + w) % m32, a, rotl 30 b, c, d)

/-- SHA-1 padding: `0x80`, zeros to 56 mod 64, then the 64-bit bit length. -/
def sha1Pad (msg : List Nat) : List Nat :=
  let L := msg.length
  msg ++ [128] ++ List.replicate ((119 - L % 64) % 64) 0 ++
    toBytesBE 8 ((L * 8) % 18446744073709551616)

def chunks64Aux : Nat → List Nat → List (List Nat)
  | 0, _ => []
  | _ + 1, [] => []
  | fuel + 1, b :: rest => ((b :: rest).take 64) :: chunks64Aux fuel ((b :: rest).drop 64)

/-- Split a byte list into 64-byte blocks (structural recursion on a fuel
bound so the kernel can evaluate it; the fuel is always sufficient since
each step consumes at least one byte). -/
def chunks64 (l : List Nat) : List (List Nat) :=
  chunks64Aux (l.length + 1) l

def sha1Block (h : List Nat) (block : List Nat) : List Nat :=
  let ws := Nat.iterate sha1ExtendStep 64 (bytesToWords block)
  match h with
  | [h0, h1, h2, h3, h4] =>
    match sha1Rounds ws 0 (h0, h1, h2, h3, h4) with
    | (a, b, c, d, e) =>
      [(h0 + a) % m32, (h1 + b) % m32, (h2 + c) % m32, (h3 + d) % m32, (h4 + e) % m32]
  | _ => h

def sha1Words (msg : List Nat) : List Nat :=
  (chunks64 (sha1Pad msg)).foldl sha1Block
    [1732584193, 4023233417, 2562383102, 271733878, 3285377520]

def hexChar (n : Nat) : Char := if n < 10 then Char.ofNat (48 + n) else Char.ofNat (87 + n)

def wordHex (w : Nat) : List Char :=
  [hexChar (w / 268435456 % 16), hexChar (w / 16777216 % 16), hexChar (w / 1048576 % 16),
   hexChar (w / 65536 % 16), hexChar (w / 4096 % 16), hexChar (w / 256 % 16),
   hexChar (w / 16 % 16), hexChar (w % 16)]

/-- `hashlib.sha1(bytes).hexdigest()`. -/
def sha1Hex (msg : List Nat) : String :=
  String.mk ((sha1Words msg).foldr (fun w acc => wordHex w ++ acc) [])

/-- UTF-8 encoding of one character (`bytes(path, 'utf-8')`). -/
def utf8EncodeCharNat (c : Char) : List Nat :=
  let n := c.toNat
  if n < 128 then [n]
  else if n < 2048 then [192 + n / 64, 128 + n % 64]
  else if n < 65536 then [224 + n / 4096, 128 + n / 64 % 64, 128 + n % 64]
  else [240 + n / 262144, 128 + n / 4096 % 64, 128 + n / 64 % 64, 128 + n % 64]

def utf8Bytes (s : String) : List Nat :=
  s.data.foldr (fun c acc => utf8EncodeCharNat c ++ acc) []

/-- `s[:-1]` on a string. -/
def strDropLast (s : String) : String := String.mk s.data.dropLast

/-- `s.startswith(pre)` (structural, so the kernel can evaluate it). -/
def strStartsWith (s pre : String) : Bool := List.isPrefixOf pre.data s.data

/-- `s.endswith(suf)` (structural). -/
def strEndsWith (s suf : String) : Bool := List.isPrefixOf suf.data.reverse s.data.reverse

/-- `path[1:]` when the path starts with a separator (`if path.startswith("/")`). -/
def stripSlash (path : String) : String :=
  if strStartsWith path "/" then String.mk path.data.tail else path

/-- Modelled from the spec (§4.1): `branch_of(normalized_path)` is the SHA-1 hex
digest of the UTF-8 bytes of the normalized path with the final hex character
removed.  Compared below with every hash computation in the code. -/
def branch_of (normalized : String) : String :=
  strDropLast (sha1Hex (utf8Bytes normalized))

/-- The hash expression `hashlib.sha1(bytes(path, 'utf-8')).hexdigest()[:-1]`
as written at each call site in the code. -/
def codePathHash (path : String) : String :=
  strDropLast (sha1Hex (utf8Bytes path))

/-! ### Path utilities (`os.path.split`, `split_path_all`, `os.path.join`) -/

/-- Index just past the last `'/'` in `cs` (`p.rfind('/') + 1`), 0 if none. -/
def lastSlashEnd (cs : List Char) : Nat :=
  cs.enum.foldl (fun acc e => if e.2 == '/' then e.1 + 1 else acc) 0

def dropTrailingSlashes (cs : List Char) : List Char :=
  (cs.reverse.dropWhile (fun c => c == '/')).reverse

/-- POSIX `os.path.split`: split at the final separator, right-stripping
separators from the head unless the head is all separators. -/
def osPathSplit (p : String) : String × String :=
  let cs := p.data
  let i := lastSlashEnd cs
  let head := cs.take i
  let tail := cs.drop i
  let head2 := if head.isEmpty || head.all (fun c => c == '/') then head
               else dropTrailingSlashes head
  (String.mk head2, String.mk tail)

/-- The `while folder != ""` loop of `split_path_all`, collecting components.
Structural recursion on a fuel bound; the path handed to the recursive call
is strictly shorter than its input (the tail split off is non-empty), so
`path.length + 1` fuel always suffices. -/
def splitLoopAux : Nat → String → List String → List String
  | 0, _, folders => folders
  | fuel + 1, path, folders =>
    let (p2, folder) := osPathSplit path
    if folder != "" then splitLoopAux fuel p2 (folders ++ [folder])
    else if p2 != "" then folders ++ [p2]
    else folders

/-- `split_path_all(path)`: strips one leading `'/'`, returns the stripped
path together with its ordered component list. -/
def split_path_all (path : String) : String × List String :=
  let p := if strStartsWith path "/" then String.mk path.data.tail else path
  (p, (splitLoopAux (p.length + 1) p []).reverse)

/-- POSIX `os.path.join` for two components. -/
def osPathJoin2 (a b : String) : String :=
  if strStartsWith b "/" then b
  else if a == "" || strEndsWith a "/" then a ++ b
  else a ++ "/" ++ b

def osPathJoin3 (a b c : String) : String := osPathJoin2 (osPathJoin2 a b) c

/-! ### The nested `dir_structure` dict -/

/-- A value stored in the nested `dir_structure` dict: a sub-dict, an int
file size, or Python `None` (what `dict.get` returns for a missing key and
a value that `nested_set` can store). -/
inductive Node where
  | pynone
  | file (size : Int)
  | dir (entries : List (String × Node))

/-- `getFromDict(dataDict, mapList)`: walks the nested dict with
`.get(k, None)`, breaking (with `None`) as soon as a lookup misses; calling
`.get` on an int or on `None` raises `AttributeError`. -/
def getFromDict : Node → List String → Except PyError Node
  | cur, [] => .ok cur
  | .dir es, k :: ks =>
    match (alGet es k).getD .pynone with
    | .pynone => .ok .pynone
    | v => getFromDict v ks
  | .file _, _ :: _ => .error .attributeError
  | .pynone, _ :: _ => .error .attributeError

/-- `nested_set`'s walk: `dic.setdefault(key, {})` along `keys[:-1]`, then
`dic[keys[-1]] = value`.  `setdefault` on an int or `None` raises
`AttributeError`; indexing into an int or `None` raises `TypeError`;
an empty key list raises `IndexError` (`keys[-1]`). -/
def nestedSetNode : Node → List String → Node → Except PyError Node
  | _, [], _ => .error .indexError
  | .dir es, [k], v => .ok (.dir (alSet es k v))
  | .file _, [_], _ => .error .typeError
  | .pynone, [_], _ => .error .typeError
  | .dir es, k :: k2 :: ks, v =>
    match nestedSetNode ((alGet es k).getD (.dir [])) (k2 :: ks) v with
    | .ok sub2 => .ok (.dir (alSet es k sub2))
    | .error e => .error e
  | .file _, _ :: _ :: _, _ => .error .attributeError
  | .pynone, _ :: _ :: _, _ => .error .attributeError

/-- `nested_set(dic, keys, value)` on the top-level `dir_structure` dict. -/
def nested_set (tree : List (String × Node)) (keys : List String) (v : Node) :
    Except PyError (List (String × Node)) :=
  match nestedSetNode (.dir tree) keys v with
  | .ok (.dir es) => .ok es
  | .ok _ => .error .typeError
  | .error e => .error e

/-- Error raised when `_delfirst`'s running value has become `None`: another
walk step raises `AttributeError`, the final `del None[k]` raises `TypeError`. -/
def delNoneTail : List String → PyError
  | [_] => .typeError
  | _ => .attributeError

/-- `_delfirst(dataDict, mapList)`: walk `mapList[:-1]` with `.get(k, None)`
(no `None` check), then `del dataDict[mapList[-1]]`. -/
def delFirstNode : Node → List String → Except PyError Node
  | _, [] => .error .indexError
  | .dir es, [k] => if alContains es k then .ok (.dir (alErase es k)) else .error .keyError
  | .file _, [_] => .error .typeError
  | .pynone, [_] => .error .typeError
  | .dir es, k :: k2 :: ks =>
    match (alGet es k).getD .pynone with
    | .pynone => .error (delNoneTail (k2 :: ks))
    | sub =>
      match delFirstNode sub (k2 :: ks) with
      | .ok sub2 => .ok (.dir (alSet es k sub2))
      | .error e => .error e
  | .file _, _ :: _ :: _ => .error .attributeError
  | .pynone, _ :: _ :: _ => .error .attributeError

/-- `_delsecond(dataDict, mapList, j)`: walk all of `mapList[:-j]` with
`.get(k, None)`, then test `len(dataDict) == 0` (`len` of an int or `None`
raises `TypeError`). -/
def delSecondWalk : Node → List String → Except PyError Bool
  | .dir es, [] => .ok es.isEmpty
  | .file _, [] => .error .typeError
  | .pynone, [] => .error .typeError
  | .dir es, k :: ks => delSecondWalk ((alGet es k).getD .pynone) ks
  | .file _, _ :: _ => .error .attributeError
  | .pynone, _ :: _ => .error .attributeError

/-- The `delete_empty_recursive` loop of `deleteFromDict`: for `j` from `1`
to `len(mapList) - 1`, delete the ancestor `mapList[:-j]` while it has become
empty.  Fuel-based (initial fuel `mapList.length` always suffices). -/
def deleteFromDictLoop : List (String × Node) → List String → Nat → Nat →
    Except PyError (List (String × Node))
  | tree, _, _, 0 => .ok tree
  | tree, mapList, j, fuel + 1 =>
    if j < mapList.length then
      match delSecondWalk (.dir tree) (mapList.take (mapList.length - j)) with
      | .error e => .error e
      | .ok true =>
        match delFirstNode (.dir tree) (mapList.take (mapList.length - j)) with
        | .ok (.dir t2) => deleteFromDictLoop t2 mapList (j + 1) fuel
        | .ok _ => .error .typeError
        | .error e => .error e
      | .ok false => .ok tree
    else .ok tree

/-- `deleteFromDict(dataDict, mapList, delete_empty_recursive)`. -/
def deleteFromDict (tree : List (String × Node)) (mapList : List String) (rec : Bool) :
    Except PyError (List (String × Node)) :=
  match delFirstNode (.dir tree) mapList with
  | .error e => .error e
  | .ok (.dir t1) =>
    if rec then deleteFromDictLoop t1 mapList 1 mapList.length else .ok t1
  | .ok _ => .error .typeError

/-- `Passthrough._isfile(all_paths)`: `True` for an int leaf, `False` for a
dict; anything else (absent path, stored `None`) raises `ValueError`. -/
def _isfile (tree : List (String × Node)) (all_paths : List String) : Except PyError Bool :=
  match getFromDict (.dir tree) all_paths with
  | .error e => .error e
  | .ok (.dir _) => .ok false
  | .ok (.file _) => .ok true
  | .ok .pynone => .error .valueError

/-! ### The local filesystem under the cache directory (`datadir`) -/

/-- A node of the local filesystem rooted at the cache data directory. -/
inductive FsNode where
  | file (content : List Nat)
  | dir (entries : List (String × FsNode))

/-- Split a character list at `'/'`. -/
def splitSlashAux : List Char → List Char → List String
  | [], acc => [String.mk acc.reverse]
  | c :: cs, acc =>
    if c == '/' then String.mk acc.reverse :: splitSlashAux cs []
    else splitSlashAux cs (c :: acc)

/-- OS-level path resolution: components of a relative path. -/
def pathComponents (s : String) : List String :=
  (splitSlashAux s.data []).filter (fun c => c != "")

def fsGet : FsNode → List String → Option FsNode
  | n, [] => some n
  | .dir es, k :: ks =>
    match alGet es k with
    | some m => fsGet m ks
    | none => none
  | .file _, _ :: _ => none

def fsExists (root : FsNode) (comps : List String) : Bool :=
  (fsGet root comps).isSome

/-- Write `n` at `comps`, overwriting anything there; ancestors must already
exist as directories. -/
def fsSetNode : FsNode → List String → FsNode → Except PyError FsNode
  | _, [], n => .ok n
  | .dir es, [k], n => .ok (.dir (alSet es k n))
  | .dir es, k :: k2 :: ks, n =>
    match alGet es k with
    | some sub =>
      match fsSetNode sub (k2 :: ks) n with
      | .ok sub2 => .ok (.dir (alSet es k sub2))
      | .error e => .error e
    | none => .error .fileNotFound
  | .file _, _ :: _, _ => .error .notADirectory

def fsDelete : FsNode → List String → Except PyError FsNode
  | _, [] => .error .fileNotFound
  | .dir es, [k] =>
    if alContains es k then .ok (.dir (alErase es k)) else .error .fileNotFound
  | .dir es, k :: k2 :: ks =>
    match alGet es k with
    | some sub =>
      match fsDelete sub (k2 :: ks) with
      | .ok sub2 => .ok (.dir (alSet es k sub2))
      | .error e => .error e
    | none => .error .fileNotFound
  | .file _, _ :: _ => .error .notADirectory

/-- `os.remove(path)`: deletes a file; a directory raises `IsADirectoryError`. -/
def fsRemoveFile (root : FsNode) (comps : List String) : Except PyError FsNode :=
  match fsGet root comps with
  | some (.file _) => fsDelete root comps
  | some (.dir _) => .error .isADirectory
  | none => .error .fileNotFound

/-- `os.lstat(path).st_size`: content length for a file, 4096 for a directory. -/
def fsLstatSize (root : FsNode) (comps : List String) : Except PyError Int :=
  match fsGet root comps with
  | some (.file c) => .ok (c.length : Int)
  | some (.dir _) => .ok 4096
  | none => .error .fileNotFound

/-- `os.rename(old, new)`: overwrite for file→file, `IsADirectoryError` for
file→dir, `NotADirectoryError` for dir→file, dir→dir only onto an empty
directory. -/
def fsRename (root : FsNode) (oldC newC : List String) : Except PyError FsNode :=
  match fsGet root oldC with
  | none => .error .fileNotFound
  | some n =>
    let check : Except PyError Unit :=
      match n, fsGet root newC with
      | _, none => .ok ()
      | .file _, some (.file _) => .ok ()
      | .file _, some (.dir _) => .error .isADirectory
      | .dir _, some (.file _) => .error .notADirectory
      | .dir _, some (.dir es) => if es.isEmpty then .ok () else .error .dirNotEmpty
    match check with
    | .error e => .error e
    | .ok () =>
      match fsDelete root oldC with
      | .error e => .error e
      | .ok r2 => fsSetNode r2 newC n

/-- `os.walk(top)` top-down: one `(root, dirs, files)` triple per directory,
parents before children, children in insertion order. -/
def walkNode : FsNode → String → List (String × List String × List String)
  | .file _, _ => []
  | .dir es, path =>
    (path,
     es.filterMap (fun e => match e.2 with | .dir _ => some e.1 | _ => none),
     es.filterMap (fun e => match e.2 with | .file _ => some e.1 | _ => none)) ::
    (es.attach.map (fun e => walkNode e.1.2 (path ++ "/" ++ e.1.1))).flatten
termination_by n _ => sizeOf n
decreasing_by
  rcases e with ⟨⟨k, n⟩, hm⟩
  have h1 := List.sizeOf_lt_of_mem hm
  simp only [Prod.mk.sizeOf_spec] at h1
  simp only []
  simp
  omega

/-! ### The LRU cache (`class LRU(OrderedDict)`) -/

/-- The `LRU` object: insertion-ordered path→size map (oldest first), the
running `filesize_counter`, and `maxsize` (= configured gigabytes × 1e9). -/
structure LRUState where
  entries : List (String × Int)
  filesize_counter : Int
  maxsize : Int
  deriving DecidableEq, Repr

/-- `LRU(data_dir, maxsize)`: `maxsize` gigabytes become `maxsize * 1e9`. -/
def lruInit (gb : Int) : LRUState := ⟨[], 0, gb * 1000000000⟩

def moveToEnd (es : List (String × Int)) (k : String) : List (String × Int) :=
  match alGet es k with
  | some v => alErase es k ++ [(k, v)]
  | none => es

/-- `__getitem__`: returns the value and performs `move_to_end`; `KeyError`
when absent. -/
def lruGetItem (s : LRUState) (k : String) : Except PyError (Int × LRUState) :=
  match alGet s.entries k with
  | none => .error .keyError
  | some v => .ok (v, { s with entries := moveToEnd s.entries k })

/-- `__delitem__`: `self.filesize_counter -= self[key]`, then the deletion
itself.  (Used by `unlink` and by the eviction loop's `del self[oldest]`.) -/
def lruDelItem (s : LRUState) (k : String) : Except PyError LRUState :=
  match alGet s.entries k with
  | none => .error .keyError
  | some v =>
    .ok { s with entries := alErase s.entries k,
                 filesize_counter := s.filesize_counter - v }

/-- The `while self.filesize_counter > self.maxsize` eviction loop of
`__setitem__`.  Each iteration breaks when one entry remains, otherwise it
subtracts the oldest entry's size once explicitly and once more inside
`del self[oldest]` (which dispatches to the overridden `__delitem__`),
removes the entry, and removes the evicted file from the data directory. -/
def lruEvictLoop (maxsize : Int) : FsNode → List (String × Int) → Int →
    Except PyError Unit × FsNode × List (String × Int) × Int
  | fs, [], c =>
    if c ≤ maxsize then (.ok (), fs, [], c) else (.error .stopIteration, fs, [], c)
  | fs, [e], c => (.ok (), fs, [e], c)
  | fs, e :: e2 :: rest, c =>
    if c ≤ maxsize then (.ok (), fs, e :: e2 :: rest, c)
    else
      let c2 := c - 2 * e.2
      match fsRemoveFile fs (pathComponents e.1) with
      | .error err => (.error err, fs, e2 :: rest, c2)
      | .ok fs2 => lruEvictLoop maxsize fs2 (e2 :: rest) c2

/-- `__setitem__(key, value)`: an existing key is moved to the end and
overwritten (its previous size is *not* subtracted from the running total),
the new value is added to the running total, then the eviction loop runs. -/
def lruSetItemFs (fs : FsNode) (s : LRUState) (k : String) (v : Int) :
    Except PyError Unit × FsNode × LRUState :=
  let entries := (if alContains s.entries k then alErase s.entries k else s.entries) ++ [(k, v)]
  match lruEvictLoop s.maxsize fs entries (s.filesize_counter + v) with
  | (r, fs2, es2, c2) => (r, fs2, { s with entries := es2, filesize_counter := c2 })

/-- The three LRU operations of the spec (§4.2). -/
inductive LRUOp where
  | put (k : String) (v : Int)
  | get (k : String)
  | remove (k : String)

def lruApplyOp (fs : FsNode) (s : LRUState) : LRUOp → Except PyError (FsNode × LRUState)
  | .put k v =>
    match lruSetItemFs fs s k v with
    | (.ok _, fs2, s2) => .ok (fs2, s2)
    | (.error e, _, _) => .error e
  | .get k =>
    match lruGetItem s k with
    | .ok (_, s2) => .ok (fs, s2)
    | .error e => .error e
  | .remove k =>
    match lruDelItem s k with
    | .ok s2 => .ok (fs, s2)
    | .error e => .error e

/-- Run a sequence of LRU operations, propagating exceptions. -/
def lruRun : FsNode → LRUState → List LRUOp → Except PyError (FsNode × LRUState)
  | fs, s, [] => .ok (fs, s)
  | fs, s, op :: ops =>
    match lruApplyOp fs s op with
    | .ok (fs2, s2) => lruRun fs2 s2 ops
    | .error e => .error e

/-- Sum of the stored size values over all keys currently in the LRU. -/
def sumSizes (es : List (String × Int)) : Int := (es.map (fun e => e.2)).sum

/-! ### Remote git operations as effect traces (`git_*` worker functions) -/

/-- One remote/manifest effect performed by a git worker function, in order:
a `git push origin --delete`, a `sed` removal of matching manifest records,
a `git fetch origin <branch>`, the combined rename-and-delete push
`git push origin origin/<old>:refs/heads/<new> :<old>`, the `sed` that cuts
a record out of the manifest while printing it, and a csv append of a
manifest record. -/
inductive RemoteEffect where
  | pushDeleteBranch (branch : String)
  | sedRemoveFromFilelist (branch : String)
  | fetchBranch (branch : String)
  | pushRenameAndDelete (old new : String)
  | sedCutFromFilelist (branch : String)
  | appendFilelist (path branch : String)
  deriving DecidableEq, Repr

/-- `git_remove_from_remote(evilgitfs_dir, path_hash)`: push a branch
deletion, then drop every manifest record matching the hash. -/
def git_remove_from_remote (path_hash : String) : List RemoteEffect :=
  [.pushDeleteBranch path_hash, .sedRemoveFromFilelist path_hash]

/-- `Passthrough.remove_from_remote(path, block=True)`: strip one leading
slash, hash the path, run `git_remove_from_remote` and wait on its result. -/
def remove_from_remote_blocking (path : String) : List RemoteEffect :=
  git_remove_from_remote (codePathHash (stripSlash path))

/-- `git_rename_branch(evilgitfs_dir, path_old, path_new,
destination_file_exists, remove_from_remote_func)`: when the destination
exists the code synchronously calls `remove_from_remote_func(path_old,
block=True)` — with the OLD path — then fetches the old branch, pushes the
rename-plus-delete, cuts the old record from the manifest and appends the
new one. -/
def git_rename_branch (path_old path_new : String) (destination_file_exists : Bool)
    (remove_from_remote_func : String → List RemoteEffect) : List RemoteEffect :=
  let path_hash_old := codePathHash path_old
  let path_hash_new := codePathHash path_new
  (if destination_file_exists then remove_from_remote_func path_old else []) ++
  [.fetchBranch path_hash_old,
   .pushRenameAndDelete path_hash_old path_hash_new,
   .sedCutFromFilelist path_hash_old,
   .appendFilelist path_new path_hash_new]

/-- The branch identifier computed in `Passthrough.remove_from_remote`. -/
def remove_from_remote_hash (path : String) : String := codePathHash (stripSlash path)

/-- The branch identifier computed in `Passthrough.retrieve_from_remote`. -/
def retrieve_from_remote_hash (path : String) : String := codePathHash (stripSlash path)

/-- The branch identifier computed in `Passthrough.commit_to_remote`. -/
def commit_to_remote_hash (path : String) : String := codePathHash (stripSlash path)

/-- The two branch identifiers computed in `git_rename_branch` (its
arguments already had their leading slashes stripped by
`Passthrough.rename_branch`). -/
def git_rename_branch_hashes (path_old path_new : String) : String × String :=
  (codePathHash path_old, codePathHash path_new)

/-! ### Manifest synchronization (`git_sync_filelist`) -/

/-- Events of one `git_sync_filelist` run, in order. -/
inductive SyncEvent where
  | commitFilelist
  | pullMaster
  | sedStripMarkers
  | reloadTree
  | commitMerge
  | pushMaster
  deriving DecidableEq, Repr

/-- `sed -i -e '/^<<<<<<</d' -e '/^=======/d' -e '/^>>>>>>>/d'` on the
manifest: delete every line starting with a conflict marker. -/
def stripConflictMarkers (lines : List String) : List String :=
  lines.filter (fun l =>
    !(strStartsWith l "<<<<<<<" || strStartsWith l "=======" || strStartsWith l ">>>>>>>"))

/-- Names bound at module scope while the sync thread runs: the imports and
the assignments of the `__main__` block.  `pure_dir` and `data_dir` are
locals of `main()` and are NOT module globals. -/
def moduleGlobals : List String :=
  ["os", "sys", "errno", "csv", "logging", "shutil", "subprocess", "hashlib",
   "time", "threading", "urlparse", "glob", "ThreadPoolExecutor", "argparse",
   "OrderedDict", "namedtuple", "defaultdict", "Path", "FUSE", "FuseOSError",
   "Operations", "ENOENT", "getFromDict", "deleteFromDict", "_delfirst",
   "_delsecond", "nested_set", "split_path_all", "LRU", "git_remove_from_remote",
   "git_rename_branch", "git_commit_to_remote", "git_retrieve_from_remote",
   "pre_git_ops", "post_git_ops", "git_sync_filelist", "Passthrough", "main",
   "sync_loop", "description", "parser", "args", "git_token", "token",
   "username", "gitrepo", "cache_size", "sync_freq", "max_workers",
   "evilgitfs_dir", "mount_dir", "lru_file_cache", "dir_structure",
   "retrieve_queue", "remote_file_size", "executor", "sync_filelist",
   "gitrepo_parsed"]

/-- Python name resolution inside a function body: local names first, then
module globals, otherwise the reference raises `NameError`. -/
def resolvesName (localNames : List String) (n : String) : Bool :=
  localNames.contains n || moduleGlobals.contains n

/-- The locals of `git_sync_filelist` bound before its conflict branch opens
the manifest file. -/
def syncLocals : List String := ["evilgitfs_dir", "puredir", "filelist_path", "output"]

/-- Minimal model of one `csv.reader` line with delimiter `' '` and
quotechar `'|'`: take a quoted field up to its closing quote (consuming a
following delimiter), or a plain field up to the next delimiter. -/
def csvTakeQuoted : List Char → List Char → String × List Char
  | [], acc => (String.mk acc.reverse, [])
  | '|' :: ' ' :: cs, acc => (String.mk acc.reverse, cs)
  | '|' :: cs, acc => (String.mk acc.reverse, cs)
  | c :: cs, acc => csvTakeQuoted cs (c :: acc)

def csvTakePlain : List Char → List Char → String × List Char
  | [], acc => (String.mk acc.reverse, [])
  | ' ' :: cs, acc => (String.mk acc.reverse, cs)
  | c :: cs, acc => csvTakePlain cs (c :: acc)

def csvFieldsAux : Nat → List Char → List String
  | 0, _ => []
  | _ + 1, [] => []
  | fuel + 1, '|' :: rest =>
    match csvTakeQuoted rest [] with
    | (f, rest2) => f :: csvFieldsAux fuel rest2
  | fuel + 1, cs =>
    match csvTakePlain cs [] with
    | (f, rest2) => f :: csvFieldsAux fuel rest2

def csvLine (l : String) : List String := csvFieldsAux (l.length + 1) l.data

/-- Python `int(s)` on a decimal digit string. -/
def digitsVal : List Char → Option Nat
  | [] => none
  | cs =>
    cs.foldl
      (fun acc c =>
        match acc with
        | none => none
        | some n => if '0' ≤ c ∧ c ≤ '9' then some (n * 10 + (c.toNat - 48)) else none)
      (some 0)

def pyInt (s : String) : Except PyError Int :=
  match s.data with
  | '-' :: rest =>
    match digitsVal rest with
    | some n => .ok (-(n : Int))
    | none => .error .valueError
  | cs =>
    match digitsVal cs with
    | some n => .ok (n : Int)
    | none => .error .valueError

/-- The conflict-branch reload loop of `git_sync_filelist`: each manifest
record performs `nested_set` and then `remote_file_size += int(filesize)`;
the augmented assignment makes `remote_file_size` local to the function, so
the first record raises `UnboundLocalError`. -/
def loadFilelistSync (tree : List (String × Node)) :
    List String → Except PyError (List (String × Node))
  | [] => .ok tree
  | line :: _ =>
    match csvLine line with
    | [filepath, _branchname, filesize] =>
      match pyInt filesize with
      | .error e => .error e
      | .ok n =>
        match nested_set tree (split_path_all filepath).2 (.file n) with
        | .error e => .error e
        | .ok _ => .error (.unboundLocal "remote_file_size")
    | _ => .error .valueError

/-- `git_sync_filelist(evilgitfs_dir)`: commit and pull; when the pull
output reports a merge conflict, strip the conflict-marker lines and reload
`dir_structure` from `open(os.path.join(pure_dir, 'filelist.txt'))` — but
the name `pure_dir` does not resolve in this scope — then commit the
resolution and push. -/
def git_sync_filelist (mergeConflict : Bool) (filelistLines : List String)
    (tree : List (String × Node)) :
    Except PyError (List (String × Node)) × List SyncEvent :=
  let ev0 := [SyncEvent.commitFilelist, SyncEvent.pullMaster]
  if mergeConflict then
    let resolved := stripConflictMarkers filelistLines
    let ev1 := ev0 ++ [SyncEvent.sedStripMarkers]
    if resolvesName syncLocals "pure_dir" then
      match loadFilelistSync tree resolved with
      | .error e => (.error e, ev1)
      | .ok t2 =>
        (.ok t2, ev1 ++ [SyncEvent.reloadTree, SyncEvent.commitMerge, SyncEvent.pushMaster])
    else (.error (.nameError "pure_dir"), ev1)
  else (.ok tree, ev0 ++ [SyncEvent.commitMerge, SyncEvent.pushMaster])

/-! ### The `Passthrough` operations over explicit global state -/

/-- The stat dictionary assembled by `getattr`. -/
structure StatRecord where
  st_mode : Int
  st_uid : Int
  st_nlink : Int
  st_gid : Int
  st_size : Int
  st_atime : Int
  st_mtime : Int
  st_ctime : Int
  deriving DecidableEq, Repr

/-- Attributes the operating system reports for entries that really exist
under the data directory (owner, modes, timestamps are environment data,
not chosen by the program). -/
structure OsEnv where
  uid : Int
  gid : Int
  fileMode : Int
  dirMode : Int
  nlink : Int
  atime : Int
  mtime : Int
  ctime : Int
  deriving DecidableEq, Repr

/-- `os.lstat` on the modelled filesystem. -/
def fsLstat (env : OsEnv) (root : FsNode) (comps : List String) : Except PyError StatRecord :=
  match fsGet root comps with
  | some (.file c) =>
    .ok ⟨env.fileMode, env.uid, env.nlink, env.gid, (c.length : Int),
         env.atime, env.mtime, env.ctime⟩
  | some (.dir _) =>
    .ok ⟨env.dirMode, env.uid, 2, env.gid, 4096, env.atime, env.mtime, env.ctime⟩
  | none => .error .fileNotFound

/-- An open-file-table entry (files are closed before any rename or unlink
in the traces considered here, so identifying the open file by its path is
adequate). -/
structure FdEntry where
  path : List String
  offset : Nat
  isOpen : Bool
  deriving DecidableEq, Repr

/-- A git worker-pool submission (`executor.submit(...)`), recorded with the
arguments given at the call site. -/
inductive GitOp where
  | removeFromRemote (path_hash : String)
  | renameBranch (path_old path_new : String) (destination_file_exists : Bool)
  | commitToRemote (path_hash path filename : String)
  | retrieveFromRemote (path_hash path_file : String)
  deriving DecidableEq, Repr

/-- The mutable global state of the program: the local filesystem rooted at
the data directory, `dir_structure`, `lru_file_cache`, `self.actions`,
`retrieve_queue`, the open-file table, the git operations submitted to the
worker pool, and the ambient OS attributes. -/
structure SysState where
  fs : FsNode
  tree : List (String × Node)
  lru : LRUState
  actions : List (String × List String)
  retrieveQueue : List String
  fds : List FdEntry
  dispatched : List GitOp
  env : OsEnv

def dataDirStr : String := "/gitfs/datadir"

/-- `Passthrough._full_path(partial)` as a string (used by the `os.walk`
branch of `rename`). -/
def full_path (path : String) : String := dataDirStr ++ "/" ++ stripSlash path

/-- The same path resolved to components below the data-directory root. -/
def fullPathComps (path : String) : List String := pathComponents (stripSlash path)

/-- `str.replace(pat, rep)` (all occurrences), structural. -/
def replaceAllAux : Nat → List Char → List Char → List Char → List Char
  | 0, _, _, _ => []
  | _ + 1, [], _, _ => []
  | fuel + 1, c :: rest, pat, rep =>
    if List.isPrefixOf pat (c :: rest) then
      rep ++ replaceAllAux fuel ((c :: rest).drop pat.length) pat rep
    else c :: replaceAllAux fuel rest pat rep

def strReplaceAll (s pat rep : String) : String :=
  String.mk (replaceAllAux (s.data.length + 1) s.data pat.data rep.data)

/-- `self.actions[path].add(v)` on the `defaultdict(set)`. -/
def actionsAdd (a : List (String × List String)) (k v : String) :
    List (String × List String) :=
  match alGet a k with
  | none => a ++ [(k, [v])]
  | some vs => if vs.contains v then a else alSet a k (vs ++ [v])

/-- `self.actions.pop(path, ())`. -/
def actionsPop (a : List (String × List String)) (k : String) :
    List String × List (String × List String) :=
  match alGet a k with
  | none => ([], a)
  | some vs => (vs, alErase a k)

def fdLookup (s : SysState) (fh : Nat) : Except PyError FdEntry :=
  match s.fds.get? fh with
  | some e => if e.isOpen then .ok e else .error .badFd
  | none => .error .badFd

def fdSet (s : SysState) (fh : Nat) (e : FdEntry) : SysState :=
  { s with fds := s.fds.set fh e }

/-- `os.open(full_path, os.O_WRONLY | os.O_CREAT, mode)`: open an existing
file (no truncation) or create an empty one (the parent must exist). -/
def osOpenCreate (s : SysState) (path : String) : Except PyError Nat × SysState :=
  let comps := fullPathComps path
  match fsGet s.fs comps with
  | some (.file _) =>
    (.ok s.fds.length, { s with fds := s.fds ++ [⟨comps, 0, true⟩] })
  | some (.dir _) => (.error .isADirectory, s)
  | none =>
    match fsSetNode s.fs comps (.file []) with
    | .ok fs2 =>
      (.ok s.fds.length, { s with fs := fs2, fds := s.fds ++ [⟨comps, 0, true⟩] })
    | .error e => (.error e, s)

/-- `os.lseek(fh, offset, os.SEEK_SET)`. -/
def osLseek (s : SysState) (fh : Nat) (offset : Nat) : Except PyError Unit × SysState :=
  match fdLookup s fh with
  | .error e => (.error e, s)
  | .ok fd => (.ok (), fdSet s fh { fd with offset := offset })

/-- Overwrite `buf` into `content` at byte offset `off`, zero-padding any
gap and extending the file as needed. -/
def writeAt (content : List Nat) (off : Nat) (buf : List Nat) : List Nat :=
  let padded := content ++ List.replicate (off - content.length) 0
  padded.take off ++ buf ++ padded.drop (off + buf.length)

/-- `os.write(fh, buf)`. -/
def osWrite (s : SysState) (fh : Nat) (buf : List Nat) : Except PyError Nat × SysState :=
  match fdLookup s fh with
  | .error e => (.error e, s)
  | .ok fd =>
    match fsGet s.fs fd.path with
    | some (.file c) =>
      match fsSetNode s.fs fd.path (.file (writeAt c fd.offset buf)) with
      | .ok fs2 =>
        (.ok buf.length,
         fdSet { s with fs := fs2 } fh { fd with offset := fd.offset + buf.length })
      | .error e => (.error e, s)
    | _ => (.error .badFd, s)

/-- `os.read(fh, length)`. -/
def osRead (s : SysState) (fh : Nat) (len : Nat) : Except PyError (List Nat) × SysState :=
  match fdLookup s fh with
  | .error e => (.error e, s)
  | .ok fd =>
    match fsGet s.fs fd.path with
    | some (.file c) =>
      let out := (c.drop fd.offset).take len
      (.ok out, fdSet s fh { fd with offset := fd.offset + out.length })
    | _ => (.error .badFd, s)

/-- `os.close(fh)`. -/
def osClose (s : SysState) (fh : Nat) : Except PyError Unit × SysState :=
  match fdLookup s fh with
  | .error e => (.error e, s)
  | .ok fd => (.ok (), fdSet s fh { fd with isOpen := false })

/-- Python-set union on lists: add each element not already present, in
order.  (`dirents.update(...)` on the `{'.', '..'}` set.) -/
def setUnion (base add : List String) : List String :=
  add.foldl (fun acc k => if acc.contains k then acc else acc ++ [k]) base

namespace Passthrough

/-- `Passthrough.readdir(path, fh)`: look up the tree node; `None` raises
`ENOENT`; a dict contributes its keys to the `{'.', '..'}` set (the code
performs the identical set update twice); any other node contributes
nothing. -/
def readdir (tree : List (String × Node)) (path : String) :
    Except PyError (List String) :=
  let ap := (split_path_all path).2
  match getFromDict (.dir tree) ap with
  | .error e => .error e
  | .ok .pynone => .error .fuseENOENT
  | .ok (.dir es) =>
    .ok (setUnion (setUnion [".", ".."] (es.map (fun e => e.1))) (es.map (fun e => e.1)))
  | .ok (.file _) => .ok [".", ".."]

/-- `Passthrough.getattr(path)`. -/
def getattr (s : SysState) (path : String) : Except PyError StatRecord :=
  let comps := fullPathComps path
  let pk := (split_path_all path).1
  let ap := (split_path_all path).2
  if (alGet s.lru.entries pk).isSome then
    fsLstat s.env s.fs comps
  else
    match getFromDict (.dir s.tree) ap with
    | .error e => .error e
    | .ok .pynone => .error .fuseENOENT
    | .ok v =>
      if fsExists s.fs comps then fsLstat s.env s.fs comps
      else
        match v with
        | .dir _ => .ok ⟨16893, 1001, 2, 1001, 4096, 7226582400, 7226582400, 7226582400⟩
        | _ => .ok ⟨33204, 1001, 1, 1001, 0, 7226582400, 7226582400, 7226582400⟩

/-- `Passthrough.commit_to_remote(path)`: strip the slash, hash, and submit
`git_commit_to_remote` (recorded as a dispatched operation). -/
def commit_to_remote (s : SysState) (path : String) : SysState :=
  let p := stripSlash path
  { s with dispatched :=
      s.dispatched ++ [.commitToRemote (codePathHash p) p (osPathSplit p).2] }

/-- `Passthrough.rename_branch(path_old, path_new, destination_file_exists)`:
strip slashes and submit `git_rename_branch`. -/
def rename_branch (s : SysState) (path_old path_new : String)
    (destination_file_exists : Bool) : SysState :=
  { s with dispatched :=
      s.dispatched ++
        [.renameBranch (stripSlash path_old) (stripSlash path_new) destination_file_exists] }

/-- `Passthrough._add_file_to_fs(path, create)`: size 0 on create, else the
current `os.lstat` size; `nested_set` into the tree, then
`lru_file_cache[partial] = size` (with its eviction side effects). -/
def _add_file_to_fs (s : SysState) (path : String) (create : Bool) :
    Except PyError Unit × SysState :=
  match (if create then .ok 0 else fsLstatSize s.fs (fullPathComps path)) with
  | .error e => (.error e, s)
  | .ok size =>
    let pk := (split_path_all path).1
    let ap := (split_path_all path).2
    match nested_set s.tree ap (.file size) with
    | .error e => (.error e, s)
    | .ok t2 =>
      match lruSetItemFs s.fs { s with tree := t2 }.lru pk size with
      | (r, fs2, lru2) => (r, { s with tree := t2, fs := fs2, lru := lru2 })

/-- The condition `mode == 33152 or path[-1] == '~'` of `create`
(short-circuit: the subscript `path[-1]` raises `IndexError` on an empty
path only when the mode test is false). -/
def createIgnoreCond (path : String) (mode : Int) : Except PyError Bool :=
  if mode == 33152 then .ok true
  else match path.data.getLast? with
       | none => .error .indexError
       | some c => .ok (c == '~')

/-- `Passthrough.create(path, mode)`: mode 33152 or a trailing `'~'` opens
the file with no bookkeeping; otherwise mark pending-write, add a zero-sized
entry to tree and LRU, and open. -/
def create (s : SysState) (path : String) (mode : Int) :
    Except PyError Nat × SysState :=
  match createIgnoreCond path mode with
  | .error e => (.error e, s)
  | .ok true => osOpenCreate s path
  | .ok false =>
    let s1 := { s with actions := actionsAdd s.actions path "write" }
    match _add_file_to_fs s1 path true with
    | (.error e, s2) => (.error e, s2)
    | (.ok _, s2) => osOpenCreate s2 path

/-- `Passthrough.write(path, buf, offset, fh)`. -/
def write (s : SysState) (path : String) (buf : List Nat) (offset : Nat) (fh : Nat) :
    Except PyError Nat × SysState :=
  match osLseek s fh offset with
  | (.error e, s1) => (.error e, s1)
  | (.ok _, s1) =>
    osWrite { s1 with actions := actionsAdd s1.actions path "write" } fh buf

/-- `Passthrough.read(path, length, offset, fh)`. -/
def read (s : SysState) (path : String) (len : Nat) (offset : Nat) (fh : Nat) :
    Except PyError (List Nat) × SysState :=
  match osLseek s fh offset with
  | (.error e, s1) => (.error e, s1)
  | (.ok _, s1) =>
    osRead { s1 with actions := actionsAdd s1.actions path "read" } fh len

/-- `Passthrough.release(path, fh)`: pop the pending actions; a pending
write refreshes tree and LRU sizes and dispatches a commit; then close. -/
def release (s : SysState) (path : String) (fh : Nat) :
    Except PyError Unit × SysState :=
  match actionsPop s.actions path with
  | (acts, a2) =>
    let s1 := { s with actions := a2 }
    if acts.contains "write" then
      match _add_file_to_fs s1 path false with
      | (.error e, s2) => (.error e, s2)
      | (.ok _, s2) => osClose (commit_to_remote s2 path) fh
    else osClose s1 fh

/-- The file branch of `rename`: move the tree leaf to the new components,
delete the old one, move the LRU entry when present, then dispatch the
branch rename. -/
def renameFileBranch (s : SysState) (pOld pNew : String) (apOld apNew : List String)
    (dfe : Bool) : Except PyError Unit × SysState :=
  match getFromDict (.dir s.tree) apOld with
  | .error e => (.error e, s)
  | .ok v =>
    match nested_set s.tree apNew v with
    | .error e => (.error e, s)
    | .ok t2 =>
      match deleteFromDict t2 apOld false with
      | .error e => (.error e, { s with tree := t2 })
      | .ok t3 =>
        let s1 := { s with tree := t3 }
        match alGet s1.lru.entries pOld with
        | none => (.ok (), rename_branch s1 pOld pNew dfe)
        | some v2 =>
          match lruSetItemFs s1.fs s1.lru pNew v2 with
          | (.error e, fs2, lru2) => (.error e, { s1 with fs := fs2, lru := lru2 })
          | (.ok _, fs2, lru2) =>
            let s2 := { s1 with fs := fs2, lru := lru2 }
            match lruDelItem s2.lru pOld with
            | .error e => (.error e, s2)
            | .ok lru3 => (.ok (), rename_branch { s2 with lru := lru3 } pOld pNew dfe)

/-- The inner `for file in files` loop of `rename`'s directory branch. -/
def renameFilesLoop (apOld apNewCur : List String) (pOld pNew pSub : String)
    (apSub : List String) :
    SysState → List String → Except PyError Unit × SysState
  | s, [] => (.ok (), s)
  | s, file :: files =>
    let pOldInt := osPathJoin3 pOld pSub file
    let pNewInt := osPathJoin3 pNew pSub file
    let apOldInt := apOld ++ apSub ++ [file]
    let apNewInt := apNewCur ++ apSub ++ [file]
    match getFromDict (.dir s.tree) apOldInt with
    | .error e => (.error e, s)
    | .ok v =>
      match nested_set s.tree apNewInt v with
      | .error e => (.error e, s)
      | .ok t2 =>
        match deleteFromDict t2 apOldInt true with
        | .error e => (.error e, { s with tree := t2 })
        | .ok t3 =>
          let s1 := { s with tree := t3 }
          match alGet s1.lru.entries pOldInt with
          | none =>
            renameFilesLoop apOld apNewCur pOld pNew pSub apSub
              (rename_branch s1 pOldInt pNewInt false) files
          | some v2 =>
            match lruSetItemFs s1.fs s1.lru pNewInt v2 with
            | (.error e, fs2, lru2) => (.error e, { s1 with fs := fs2, lru := lru2 })
            | (.ok _, fs2, lru2) =>
              let s2 := { s1 with fs := fs2, lru := lru2 }
              match lruDelItem s2.lru pOldInt with
              | .error e => (.error e, s2)
              | .ok lru3 =>
                renameFilesLoop apOld apNewCur pOld pNew pSub apSub
                  (rename_branch { s2 with lru := lru3 } pOldInt pNewInt false) files

/-- The `for root, dirs, files in os.walk(...)` loop of `rename`'s
directory branch.  The local `all_paths_new` is rebound by the empty-`files`
case and the new binding is seen by later iterations, so it is threaded as
loop state (`apNewCur`). -/
def renameWalkLoop (apOld : List String) (pOld pNew base : String) :
    SysState → List String → List (String × List String × List String) →
    Except PyError Unit × SysState
  | s, _, [] => (.ok (), s)
  | s, apNewCur, (root, _dirs, files) :: rest =>
    let root2 := strReplaceAll root base ""
    let pSub := (split_path_all root2).1
    let apSub := (split_path_all root2).2
    if files.isEmpty then
      let apOldInt := apOld ++ apSub
      let apNewCur2 := apSub
      match getFromDict (.dir s.tree) apOldInt with
      | .error e => (.error e, s)
      | .ok .pynone => renameWalkLoop apOld pOld pNew base s apNewCur2 rest
      | .ok v =>
        match nested_set s.tree apNewCur2 v with
        | .error e => (.error e, s)
        | .ok t2 =>
          match deleteFromDict t2 apOldInt false with
          | .error e => (.error e, { s with tree := t2 })
          | .ok t3 => renameWalkLoop apOld pOld pNew base { s with tree := t3 } apNewCur2 rest
    else
      match renameFilesLoop apOld apNewCur pOld pNew pSub apSub s files with
      | (.error e, s2) => (.error e, s2)
      | (.ok _, s2) => renameWalkLoop apOld pOld pNew base s2 apNewCur rest

/-- `Passthrough.rename(old_path, new_path)`: determine
`destination_file_exists` (calling `_isfile` on the destination as well),
perform `os.rename`, then update the internal listings — per-leaf for a
file, by walking the renamed cache subtree for a directory. -/
def rename (s : SysState) (old_path new_path : String) :
    Except PyError Unit × SysState :=
  let pOld := (split_path_all old_path).1
  let apOld := (split_path_all old_path).2
  let pNew := (split_path_all new_path).1
  let apNew := (split_path_all new_path).2
  match (match _isfile s.tree apOld with
         | .error e => Except.error e
         | .ok false => Except.ok false
         | .ok true =>
           match getFromDict (.dir s.tree) apOld with
           | .error e => Except.error e
           | .ok .pynone => Except.ok false
           | .ok _ => _isfile s.tree apNew) with
  | .error e => (.error e, s)
  | .ok dfe =>
    match fsRename s.fs (fullPathComps old_path) (fullPathComps new_path) with
    | .error e => (.error e, s)
    | .ok fs2 =>
      let s1 := { s with fs := fs2 }
      match _isfile s1.tree apOld with
      | .error e => (.error e, s1)
      | .ok true => renameFileBranch s1 pOld pNew apOld apNew dfe
      | .ok false =>
        let base := full_path new_path
        let entries :=
          match fsGet s1.fs (fullPathComps new_path) with
          | some n => walkNode n base
          | none => []
        renameWalkLoop apOld pOld pNew base s1 apNew entries

end Passthrough

/-! ### Theorems about the LRU cache (claims C3, C4, C5) -/

/-- Claim C3 (refuted): the sum of the stored sizes is NOT always at most the
configured capacity when more than one entry remains.  With capacity 10 GB,
putting `a`, `b`, `c` of 6 GB each leaves two entries summing to 12 GB:
evicting `a` subtracted its size twice from `filesize_counter` (once in the
loop and once in the overridden `__delitem__`), so the drifted counter (6 GB)
passes the capacity test while the true sum (12 GB) exceeds it. -/
theorem lru_capacity_can_be_exceeded :
    lruRun (.dir [("a", .file []), ("b", .file [])]) (lruInit 10)
      [.put "a" 6000000000, .put "b" 6000000000, .put "c" 6000000000] =
      .ok (.dir [("b", .file [])],
           { entries := [("b", 6000000000), ("c", 6000000000)],
             filesize_counter := 6000000000, maxsize := 10000000000 }) ∧
    sumSizes [("b", 6000000000), ("c", 6000000000)] = 12000000000 ∧
    [("b", (6000000000 : Int)), ("c", 6000000000)].length ≠ 1 ∧
    (lruInit 10).maxsize < 12000000000 :=
  ⟨by rfl, by decide, by decide, by decide⟩

/-- Claim C4 (refuted): updating an existing key does NOT subtract the
previous size from the running total.  From total 1 with `a ↦ 1`, putting
`(a, 2)` yields total 3, not `1 - 1 + 2 = 2`: `__setitem__` only adds the
new value. -/
theorem lru_update_does_not_subtract_old_size :
    lruRun (.dir []) (lruInit 10) [.put "a" 1, .put "a" 2] =
      .ok (.dir [],
           { entries := [("a", 2)], filesize_counter := 3, maxsize := 10000000000 }) ∧
    (3 : Int) ≠ 1 - 1 + 2 :=
  ⟨by rfl, by decide⟩

/-- Claim C5 (refuted): the running total can become negative.  Evicting `a`
subtracts its 6 GB twice (counter 12 → 0 while `b`'s 6 GB is still stored);
removing `b` then drives the counter to −6 GB. -/
theorem lru_counter_can_go_negative :
    lruRun (.dir [("a", .file []), ("b", .file [])]) (lruInit 10)
      [.put "a" 6000000000, .put "b" 6000000000, .remove "b"] =
      .ok (.dir [("b", .file [])],
           { entries := [], filesize_counter := -6000000000, maxsize := 10000000000 }) ∧
    (-6000000000 : Int) < 0 :=
  ⟨by rfl, by decide⟩

/-! ### Theorems about the remote operations (claims C2, C9) -/

/-- Claim C2 (refuted): with `destination_exists` true, the branch deleted
synchronously before the rename push is the SOURCE path's branch, not the
destination's: `git_rename_branch` passes `path_old` to
`remove_from_remote_func`.  At `path_old = "a"`, `path_new = "b"` the trace
starts by deleting `branch_of "a"`, and `branch_of "a" ≠ branch_of "b"`. -/
theorem rename_branch_deletes_source_branch :
    git_rename_branch "a" "b" true remove_from_remote_blocking =
      [.pushDeleteBranch (branch_of "a"), .sedRemoveFromFilelist (branch_of "a"),
       .fetchBranch (branch_of "a"), .pushRenameAndDelete (branch_of "a") (branch_of "b"),
       .sedCutFromFilelist (branch_of "a"), .appendFilelist "b" (branch_of "b")] ∧
    branch_of "a" ≠ branch_of "b" :=
  ⟨by rfl, by decide⟩

/-- Claim C9 (confirmed): every branch identifier computed in the program —
in `remove_from_remote`, `retrieve_from_remote` and `commit_to_remote`
(each stripping one leading slash first) and the two in `git_rename_branch`
(whose arguments are already stripped) — equals `branch_of` of the
normalized path, i.e. the SHA-1 hex digest of its UTF-8 bytes with the
final hex character dropped; the mapping is deterministic; and on `"a"` it
is the standard SHA-1 digest of `"a"` minus its final character. -/
theorem branch_identifier_formula (p q : String) (h : p = q) :
    remove_from_remote_hash p = branch_of (stripSlash p) ∧
    retrieve_from_remote_hash p = branch_of (stripSlash p) ∧
    commit_to_remote_hash p = branch_of (stripSlash p) ∧
    git_rename_branch_hashes p q = (branch_of p, branch_of q) ∧
    branch_of p = branch_of q ∧
    branch_of "a" = "86f7e437faa5a7fce15d1ddcb9eaeaea377667b" :=
  ⟨rfl, rfl, rfl, rfl, by rw [h], by decide⟩

/-- Witness for `branch_identifier_formula` at the concrete path `"/a"`. -/
theorem branch_identifier_formula_witness :
    remove_from_remote_hash "/a" = branch_of (stripSlash "/a") ∧
    retrieve_from_remote_hash "/a" = branch_of (stripSlash "/a") ∧
    commit_to_remote_hash "/a" = branch_of (stripSlash "/a") ∧
    git_rename_branch_hashes "/a" "/a" = (branch_of "/a", branch_of "/a") ∧
    branch_of "/a" = branch_of "/a" ∧
    branch_of "a" = "86f7e437faa5a7fce15d1ddcb9eaeaea377667b" :=
  branch_identifier_formula "/a" "/a" rfl

/-! ### Theorems about `rename`, `readdir`, `getattr`, `create` -/

/-- OS attributes used by the concrete traces. -/
def initEnv : OsEnv := ⟨1000, 1000, 33188, 16877, 1, 0, 0, 0⟩

/-- A fresh mount: empty data directory, empty tree, empty 10 GB LRU. -/
def initState : SysState := ⟨.dir [], [], lruInit 10, [], [], [], [], initEnv⟩

def c1AfterCreate : SysState := (Passthrough.create initState "/p" 33188).2

def c1AfterWrite : SysState :=
  (Passthrough.write c1AfterCreate "/p" [104, 101, 108, 108, 111] 0 0).2

def c1AfterRelease : SysState := (Passthrough.release c1AfterWrite "/p" 0).2

/-- Claim C1 (refuted): after `create "/p"`, writing the five bytes of
`"hello"` and releasing, the tree holds the leaf `p ↦ 5` and `"/q"` is
absent from tree and LRU — yet `rename "/p" "/q"` raises `ValueError`
instead of completing: `rename` calls `_isfile` on the destination
components, and `_isfile` raises on an absent path.  The state is returned
unchanged, so no leaf or LRU entry ever moves. -/
theorem rename_to_fresh_destination_raises :
    (Passthrough.create initState "/p" 33188).1 = .ok 0 ∧
    getFromDict (.dir c1AfterRelease.tree) ["p"] = .ok (.file 5) ∧
    getFromDict (.dir c1AfterRelease.tree) ["q"] = .ok .pynone ∧
    alGet c1AfterRelease.lru.entries "q" = none ∧
    (Passthrough.rename c1AfterRelease "/p" "/q").1 = .error .valueError ∧
    (Passthrough.rename c1AfterRelease "/p" "/q").2 = c1AfterRelease :=
  ⟨by rfl, by rfl, by rfl, by rfl, by rfl, by rfl⟩

/-- Claim C7, counterexample: `readdir` on a path whose tree node is a file
leaf does NOT fail with not-found — it yields exactly `'.'` and `'..'`
(the `isinstance(dir_listing, dict)` guard skips the update, and no error
is raised). -/
theorem readdir_file_leaf_counterexample :
    Passthrough.readdir [("f", Node.file 0)] "/f" = .ok [".", ".."] ∧
    (Except.ok [".", ".."] : Except PyError (List String)) ≠ .error .fuseENOENT :=
  ⟨by rfl, fun h => Except.noConfusion h⟩

/-- Claim C7 as amended: an absent lookup (`None`) fails with not-found; a
file leaf yields exactly `'.'` and `'..'` without failing; a directory node
yields `'.'`, `'..'` and every immediate child key; an erroring lookup
propagates its error. -/
theorem readdir_characterization (tree : List (String × Node)) (path : String) :
    (getFromDict (.dir tree) (split_path_all path).2 = .ok .pynone →
      Passthrough.readdir tree path = .error .fuseENOENT) ∧
    (∀ n : Int, getFromDict (.dir tree) (split_path_all path).2 = .ok (.file n) →
      Passthrough.readdir tree path = .ok [".", ".."]) ∧
    (∀ es : List (String × Node),
      getFromDict (.dir tree) (split_path_all path).2 = .ok (.dir es) →
      Passthrough.readdir tree path =
        .ok (setUnion (setUnion [".", ".."] (es.map (fun e => e.1)))
              (es.map (fun e => e.1)))) ∧
    (∀ e : PyError, getFromDict (.dir tree) (split_path_all path).2 = .error e →
      Passthrough.readdir tree path = .error e) := by
  refine ⟨fun h => ?_, fun n h => ?_, fun es h => ?_, fun e h => ?_⟩ <;>
    simp only [Passthrough.readdir] <;> rw [h]

/-- Witness for `readdir_characterization`: a directory with one child
yields `['.', '..', 'x']`, and an absent path fails with not-found. -/
theorem readdir_characterization_witness :
    Passthrough.readdir [("d", Node.dir [("x", Node.file 1)])] "/d" =
      .ok [".", "..", "x"] ∧
    Passthrough.readdir [("f", Node.file 0)] "/zzz" = .error .fuseENOENT :=
  ⟨(readdir_characterization [("d", Node.dir [("x", Node.file 1)])] "/d").2.2.1
      [("x", Node.file 1)] rfl,
   (readdir_characterization [("f", Node.file 0)] "/zzz").1 rfl⟩

/-- Claim C10 (confirmed): for a path present in the directory tree but not
in the LRU and with no file at its cache path, `getattr` returns a
synthetic record whose `st_uid` and `st_gid` are the hard-coded 1001,
whatever the ambient OS attributes are. -/
theorem getattr_synthetic_uid_gid (s : SysState) (path : String) (v : Node)
    (h1 : alGet s.lru.entries (split_path_all path).1 = none)
    (h2 : getFromDict (.dir s.tree) (split_path_all path).2 = .ok v)
    (h3 : v ≠ Node.pynone)
    (h4 : fsExists s.fs (fullPathComps path) = false) :
    ∃ r : StatRecord, Passthrough.getattr s path = .ok r ∧
      r.st_uid = 1001 ∧ r.st_gid = 1001 := by
  simp only [Passthrough.getattr]
  rw [h1, h2]
  simp only [Option.isSome_none, Bool.false_eq_true, if_false]
  rw [h4]
  cases v with
  | pynone => exact absurd rfl h3
  | file n => exact ⟨_, rfl, rfl, rfl⟩
  | dir es => exact ⟨_, rfl, rfl, rfl⟩

def c10State : SysState :=
  ⟨.dir [], [("x", .file 5)], lruInit 10, [], [], [], [], ⟨77, 88, 33188, 16877, 1, 9, 9, 9⟩⟩

/-- Witness for `getattr_synthetic_uid_gid` on a not-yet-materialized file
`/x` under an OS reporting uid 77 and gid 88 for real files. -/
theorem getattr_synthetic_uid_gid_witness :
    ∃ r : StatRecord, Passthrough.getattr c10State "/x" = .ok r ∧
      r.st_uid = 1001 ∧ r.st_gid = 1001 :=
  getattr_synthetic_uid_gid c10State "/x" (Node.file 5) rfl rfl
    (fun h => Node.noConfusion h) rfl

/-! ### Helper lemmas for the `create` theorem (claim C8) -/

theorem alGet_alSet {α : Type} (es : List (String × α)) (k : String) (v : α) :
    alGet (alSet es k v) k = some v := by
  induction es with
  | nil => simp [alSet, alGet, List.find?]
  | cons e rest ih =>
    cases h : e.1 == k with
    | true => simp [alSet, h, alGet, List.find?]
    | false =>
      simp only [alSet, h, Bool.false_eq_true, if_false]
      simpa [alGet, List.find?, h] using ih

theorem mem_alErase_ne {α : Type} (es : List (String × α)) (k : String) :
    ∀ e ∈ alErase es k, e.1 ≠ k := by
  intro e he
  simp only [alErase, List.mem_filter] at he
  simpa using he.2

theorem mem_ne_of_not_alContains {α : Type} (es : List (String × α)) (k : String)
    (h : alContains es k = false) : ∀ e ∈ es, e.1 ≠ k := by
  intro e he heq
  rw [alContains, List.any_eq_false] at h
  exact absurd (by simp [heq]) (h e he)

theorem alGet_none_ne {α : Type} (a : List (String × α)) (k : String)
    (h : alGet a k = none) : ∀ e ∈ a, e.1 ≠ k := by
  intro e he heq
  rw [alGet, Option.map_eq_none', List.find?_eq_none] at h
  exact absurd (by simp [heq]) (h e he)

theorem alGet_append_last {α : Type} (l : List (String × α)) (k : String) (v : α)
    (h : ∀ e ∈ l, e.1 ≠ k) : alGet (l ++ [(k, v)]) k = some v := by
  induction l with
  | nil => simp [alGet, List.find?]
  | cons e rest ih =>
    have he : (e.1 == k) = false := by simpa using h e (by simp)
    simpa [alGet, List.find?, he] using ih (fun e' he' => h e' (by simp [he']))

/-- The eviction loop never removes the most-recent entry: an entry sitting
at the tail whose key appears nowhere else survives with its value. -/
theorem lruEvictLoop_alGet (maxsize : Int) (k : String) (v : Int) :
    ∀ (l : List (String × Int)) (fs : FsNode) (c : Int),
      (∀ e ∈ l, e.1 ≠ k) →
      alGet (lruEvictLoop maxsize fs (l ++ [(k, v)]) c).2.2.1 k = some v := by
  intro l
  induction l with
  | nil =>
    intro fs c h
    simp [lruEvictLoop, alGet, List.find?]
  | cons e0 rest ih =>
    intro fs c h
    have hne : (e0.1 == k) = false := by simpa using h e0 (by simp)
    have hrest : ∀ e ∈ rest, e.1 ≠ k := fun e he => h e (by simp [he])
    rcases hsh : rest ++ [(k, v)] with _ | ⟨y, ys⟩
    · exact absurd hsh (by simp)
    · simp only [List.cons_append, hsh]
      rw [lruEvictLoop]
      split
      · rw [← hsh]
        simpa [alGet, List.find?, hne] using alGet_append_last rest k v hrest
      · rcases hrem : fsRemoveFile fs (pathComponents e0.1) with e | fs2 <;>
          simp only [hrem]
        · rw [← hsh]
          exact alGet_append_last rest k v hrest
        · rw [← hsh]
          exact ih fs2 (c - 2 * e0.2) hrest

/-- `__setitem__` always leaves the inserted key present with the inserted
value (a single entry is never evicted). -/
theorem lruSetItemFs_alGet (fs : FsNode) (s : LRUState) (k : String) (v : Int) :
    alGet (lruSetItemFs fs s k v).2.2.entries k = some v := by
  have hpre : ∀ e ∈ (if alContains s.entries k then alErase s.entries k else s.entries),
      e.1 ≠ k := by
    split
    · exact mem_alErase_ne s.entries k
    · next hcon => exact mem_ne_of_not_alContains s.entries k (by simpa using hcon)
  have hloop := lruEvictLoop_alGet s.maxsize k v _ fs (s.filesize_counter + v) hpre
  simp only [lruSetItemFs]
  rcases hev : lruEvictLoop s.maxsize fs
      ((if alContains s.entries k then alErase s.entries k else s.entries) ++ [(k, v)])
      (s.filesize_counter + v) with ⟨r, fs2, es2, c2⟩
  rw [hev] at hloop
  simpa using hloop

theorem mem_actionsAdd (a : List (String × List String)) (k v : String) :
    v ∈ (alGet (actionsAdd a k v) k).getD [] := by
  unfold actionsAdd
  rcases hg : alGet a k with _ | vs
  · rw [alGet_append_last a k [v] (alGet_none_ne a k hg)]
    simp
  · cases hc : vs.contains v with
    | true =>
      simp only [hc, if_true, hg]
      simpa using hc
    | false =>
      simp only [hc, Bool.false_eq_true, if_false]
      rw [alGet_alSet]
      simp

theorem nestedSetNode_get (ks : List String) :
    ∀ (n v n2 : Node), nestedSetNode n ks v = .ok n2 → getFromDict n2 ks = .ok v := by
  induction ks with
  | nil => intro n v n2 h; simp [nestedSetNode] at h
  | cons k ks ih =>
    intro n v n2 h
    cases ks with
    | nil =>
      cases n with
      | dir es =>
        simp only [nestedSetNode, Except.ok.injEq] at h
        subst h
        cases v <;> simp [getFromDict, alGet_alSet]
      | file m => simp [nestedSetNode] at h
      | pynone => simp [nestedSetNode] at h
    | cons k2 ks' =>
      cases n with
      | dir es =>
        rcases hs : nestedSetNode ((alGet es k).getD (.dir [])) (k2 :: ks') v with e | sub2
        · simp [nestedSetNode, hs] at h
        · simp only [nestedSetNode, hs, Except.ok.injEq] at h
          subst h
          have hrec := ih _ v sub2 hs
          cases sub2 with
          | pynone => simp [getFromDict] at hrec
          | file m =>
            rw [← hrec]
            simp [getFromDict, alGet_alSet]
          | dir es2 =>
            rw [← hrec]
            simp [getFromDict, alGet_alSet]
      | file m => simp [nestedSetNode] at h
      | pynone => simp [nestedSetNode] at h

/-- A successful `nested_set` leaves the stored value readable at the same
key path. -/
theorem nested_set_get (t : List (String × Node)) (ks : List String) (v : Node)
    (t2 : List (String × Node)) (h : nested_set t ks v = .ok t2) :
    getFromDict (.dir t2) ks = .ok v := by
  unfold nested_set at h
  rcases hs : nestedSetNode (.dir t) ks v with e | n2
  · rw [hs] at h; cases h
  · rw [hs] at h
    cases n2 with
    | dir es =>
      simp only [Except.ok.injEq] at h
      subst h
      exact nestedSetNode_get ks _ v _ hs
    | file m => cases h
    | pynone => cases h

/-- `os.open(..., O_WRONLY | O_CREAT, ...)` touches only the filesystem and
the open-file table. -/
theorem osOpenCreate_frame (s : SysState) (path : String) :
    (osOpenCreate s path).2.tree = s.tree ∧ (osOpenCreate s path).2.lru = s.lru ∧
    (osOpenCreate s path).2.actions = s.actions ∧
    (osOpenCreate s path).2.dispatched = s.dispatched := by
  unfold osOpenCreate
  rcases hg : fsGet s.fs (fullPathComps path) with _ | n
  · rcases hset : fsSetNode s.fs (fullPathComps path) (.file []) with e | fs2 <;>
      simp [hg, hset]
  · cases n <;> simp [hg]

/-! ### Theorem about `create` (claim C8) -/

/-- Claim C8 (confirmed): `create` with mode 33152 or a path whose last
character is `'~'` leaves the directory tree, the LRU, the pending-action
map and the dispatched-operation list unchanged; every other `create`
(provided the tree insertion itself does not raise) marks the path
pending-write and inserts a zero-sized leaf into both the tree and the
LRU, still dispatching nothing. -/
theorem create_effects (s : SysState) (path : String) (mode : Int) :
    ((mode = 33152 ∨ path.data.getLast? = some '~') →
      (Passthrough.create s path mode).2.tree = s.tree ∧
      (Passthrough.create s path mode).2.lru = s.lru ∧
      (Passthrough.create s path mode).2.actions = s.actions ∧
      (Passthrough.create s path mode).2.dispatched = s.dispatched) ∧
    (∀ (c : Char) (t2 : List (String × Node)),
      mode ≠ 33152 → path.data.getLast? = some c → c ≠ '~' →
      nested_set s.tree (split_path_all path).2 (Node.file 0) = .ok t2 →
      "write" ∈ (alGet (Passthrough.create s path mode).2.actions path).getD [] ∧
      getFromDict (.dir (Passthrough.create s path mode).2.tree)
        (split_path_all path).2 = .ok (Node.file 0) ∧
      alGet (Passthrough.create s path mode).2.lru.entries (split_path_all path).1 =
        some 0 ∧
      (Passthrough.create s path mode).2.dispatched = s.dispatched) := by
  constructor
  · intro h
    have hc : Passthrough.createIgnoreCond path mode = Except.ok true := by
      rcases h with h | h
      · simp [Passthrough.createIgnoreCond, h]
      · by_cases hm : mode = 33152
        · simp [Passthrough.createIgnoreCond, hm]
        · have hm' : (mode == 33152) = false := by simpa using hm
          simp [Passthrough.createIgnoreCond, hm', h]
    simp only [Passthrough.create, hc]
    exact osOpenCreate_frame s path
  · intro c t2 hm hlast hneq hset
    have hm' : (mode == 33152) = false := by simpa using hm
    have hc' : (c == '~') = false := by simpa using hneq
    have hc : Passthrough.createIgnoreCond path mode = Except.ok false := by
      simp [Passthrough.createIgnoreCond, hm', hlast, hc']
    simp only [Passthrough.create, hc, Passthrough._add_file_to_fs, if_true]
    rcases hL : lruSetItemFs s.fs s.lru (split_path_all path).1 0 with ⟨r, fs2, lru2⟩
    have hlru : alGet lru2.entries (split_path_all path).1 = some 0 := by
      have := lruSetItemFs_alGet s.fs s.lru (split_path_all path).1 0
      rw [hL] at this
      simpa using this
    simp only [hset, hL]
    cases r with
    | error e =>
      refine ⟨?_, ?_, ?_, ?_⟩
      · simpa using mem_actionsAdd s.actions path "write"
      · exact nested_set_get s.tree _ _ t2 hset
      · simpa using hlru
      · rfl
    | ok u =>
      have hframe := osOpenCreate_frame
        { s with actions := actionsAdd s.actions path "write",
                 tree := t2, fs := fs2, lru := lru2 } path
      refine ⟨?_, ?_, ?_, ?_⟩
      · rw [hframe.2.2.1]
        simpa using mem_actionsAdd s.actions path "write"
      · rw [hframe.1]
        exact nested_set_get s.tree _ _ t2 hset
      · rw [hframe.2.1]
        simpa using hlru
      · rw [hframe.2.2.2]

/-- Witness for `create_effects`: the ignore branch at `"/b~"` leaves the
fresh state unchanged, and a plain `create "/a"` in the fresh state marks
the pending write and inserts the zero leaf into tree and LRU. -/
theorem create_effects_witness :
    ((Passthrough.create initState "/b~" 33188).2.tree = initState.tree ∧
     (Passthrough.create initState "/b~" 33188).2.lru = initState.lru ∧
     (Passthrough.create initState "/b~" 33188).2.actions = initState.actions ∧
     (Passthrough.create initState "/b~" 33188).2.dispatched = initState.dispatched) ∧
    ("write" ∈ (alGet (Passthrough.create initState "/a" 33188).2.actions "/a").getD [] ∧
     getFromDict (.dir (Passthrough.create initState "/a" 33188).2.tree)
       (split_path_all "/a").2 = .ok (Node.file 0) ∧
     alGet (Passthrough.create initState "/a" 33188).2.lru.entries
       (split_path_all "/a").1 = some 0 ∧
     (Passthrough.create initState "/a" 33188).2.dispatched = initState.dispatched) :=
  ⟨(create_effects initState "/b~" 33188).1 (Or.inr (by decide)),
   (create_effects initState "/a" 33188).2 'a' [("a", Node.file 0)]
     (by decide) (by decide) (by decide) (by rfl)⟩

/-! ### Theorem about manifest synchronization (claim C6) -/

/-- Claim C6 (refuted): whenever a merge conflict is detected, the conflict
branch of `git_sync_filelist` terminates in an unhandled `NameError`: after
the `sed` that strips the conflict markers it reads
`open(os.path.join(pure_dir, 'filelist.txt'))`, but `pure_dir` is a local
of `main()`, not a module global, so the reload, the resolution commit and
the push never happen. -/
theorem sync_conflict_branch_raises_nameerror
    (lines : List String) (tree : List (String × Node)) :
    (git_sync_filelist true lines tree).1 = .error (.nameError "pure_dir") ∧
    (git_sync_filelist true lines tree).2 =
      [SyncEvent.commitFilelist, SyncEvent.pullMaster, SyncEvent.sedStripMarkers] ∧
    resolvesName syncLocals "pure_dir" = false :=
  ⟨rfl, rfl, rfl⟩

end EvilGitFs
